import Mathlib

/-!
Shallow embedding of `playchip.py`, a binary patcher for a fixed-layout
executable image.  The image is modelled as a total function from byte
offset to byte value; file writes become pointwise updates, so the
"file after the call" is an explicit result even when the Python code
raised an exception halfway through the write sequence.

Python-2 specifics that matter are modelled explicitly:
 * `None` compares below every integer, so `1 <= None` is `False`
   (see `pyLe`), and `None == 0` is `False`;
 * `struct.pack("<h", v)` / `struct.unpack` are two-complement
   little-endian 16-bit encodings (see `pack16lo`, `pack16hi`,
   `readword`).
-/

namespace Playchip

/-- Executable image: byte value at each offset. -/
abbrev Image := Nat → Nat

/-- `DAT_LENGTH = len("CHIPS.DAT")`. -/
def DAT_LENGTH : Nat := "CHIPS.DAT".length

/-- `INI_LENGTH = len("entpack.ini")`. -/
def INI_LENGTH : Nat := "entpack.ini".length

/-- `HEADING_LENGTH = len(<title reference string>)`; that string
(the game name, with an apostrophe) has 16 characters. -/
def HEADING_LENGTH : Nat := 16

def CHIPS_EXE_SIZE : Nat := 267776

def INI_OFFSET : Nat := 0x4A68
def HEADING_OFFSET : Nat := 0x4A74
def DAT_OFFSET : Nat := 0x4AD4

def ENDLEVEL_OFFSETS : List Nat := [0x91c0, 0xba14, 0xbb1c]

def FAKEENDLEVEL_OFFSETS : List Nat := [0x91b9, 0xbb14]

def CREDITSLEVEL_OFFSETS : List Nat := [0x9f85, 0xa6d9]

def DECADE_OFFSET : Nat := 0xbb2b

/-- `DECADE_VALUES[0]`, the legacy-message "off" byte. -/
def DECADE_OFF_BYTE : Nat := 0xd1

/-- `DECADE_VALUES[1]`, the legacy-message "on" byte. -/
def DECADE_ON_BYTE : Nat := 0xd2

def SOUND_OFFSET : Nat := 0x2f2f

/-- The distinct exception kinds `patchexe` can raise:
`StringTooLongError`, `ValueError`, and the `AssertionError` from
`patchdecade` (the unexpected-byte-value failure). -/
inductive PatchError
  | stringTooLong
  | valueError
  | assertFailed
deriving DecidableEq, Repr

/-- The keyword arguments of `patchexe`; each defaults to `None`. -/
structure PatchRequest where
  datfile : Option (List Nat) := none
  inifile : Option (List Nat) := none
  iniheading : Option (List Nat) := none
  endlevel : Option Int := none
  fakeendlevel : Option Int := none
  creditslevel : Option Int := none
  decade : Option Bool := none
  soundon : Option Bool := none

/-- Result of a call to `patchexe`: the exception raised (if any) and
the state of the file when the call returns, since the Python code
mutates the file in place and an exception can escape mid-sequence. -/
structure PatchOutcome where
  err : Option PatchError
  image : Image

/-- Overwrite one byte. -/
def update (img : Image) (off b : Nat) : Image :=
  fun i => if i = off then b else img i

/-- Sequential `file.write` of a byte list starting at `off`. -/
def writeBytes (img : Image) (off : Nat) : List Nat → Image
  | [] => img
  | b :: rest => writeBytes (update img off b) (off + 1) rest

/-- `writestring`: seek to `off`, write the bytes of `value`, then a
single zero terminator byte. -/
def writestring (img : Image) (value : List Nat) (off : Nat) : Image :=
  writeBytes img off (value ++ [0])

/-- Low byte of `struct.pack("<h", v)` (two-complement reduction mod
2^16, then the low-order byte). `struct.pack` would raise for
`v` outside `[-32768, 32767]`; every value the patcher packs has
already been validated into `[0, 999]`. -/
def pack16lo (v : Int) : Nat := ((v % 65536).toNat) % 256

/-- High byte of `struct.pack("<h", v)`. -/
def pack16hi (v : Int) : Nat := ((v % 65536).toNat) / 256

/-- `struct.pack("<h", v)` as a byte list (little-endian). -/
def pack16 (v : Int) : List Nat := [pack16lo v, pack16hi v]

/-- `writeword`: seek to `off` and write the packed signed
little-endian word. -/
def writeword (img : Image) (value : Int) (off : Nat) : Image :=
  writeBytes img off (pack16 value)

/-- One iteration of the credits loop in `patchexe`: `writeword`
leaves the position at `off + 2`, then one opcode byte is written
there: `0x7c` (jl) if the level is positive, else `0x75` (jnz). -/
def writecredits (img : Image) (value : Int) (off : Nat) : Image :=
  update (writeword img value off) (off + 2)
    (if 0 < value then 0x7c else 0x75)

/-- `patchdecade`: read the byte at `DECADE_OFFSET`, assert it is one
of the two known values, then write the chosen value. -/
def patchdecade (img : Image) (enable : Bool) : Except PatchError Image :=
  let byte := img DECADE_OFFSET
  if byte = DECADE_OFF_BYTE ∨ byte = DECADE_ON_BYTE then
    .ok (update img DECADE_OFFSET
      (if enable then DECADE_ON_BYTE else DECADE_OFF_BYTE))
  else
    .error .assertFailed

/-- Python-2 `<=` on optional integers: `None` compares below every
integer, so `None <= x` is true and `some a <= None` is false. -/
def pyLe : Option Int → Option Int → Bool
  | none, _ => true
  | some _, none => false
  | some a, some b => decide (a ≤ b)

/-- Default resolution in `patchexe`: `if x is None: x = dflt`. -/
def resolveOpt (x dflt : Option Int) : Option Int :=
  match x with
  | none => dflt
  | some v => some v

/-- `s is not None and not len(s) <= maxlen`. -/
def strTooLong (s : Option (List Nat)) (maxlen : Nat) : Bool :=
  match s with
  | some v => decide (maxlen < v.length)
  | none => false

/-- The three numeric range checks of `patchexe` (source lines
122-128), on the already default-resolved values.  Python-2 chained
comparisons with `None` follow `pyLe`; `creditslevel == 0` is false
when `creditslevel` is `None`. -/
def validateLevels (endlevel fakeendlevel creditslevel : Option Int) :
    Option PatchError :=
  if !(pyLe (some 1) endlevel && pyLe endlevel (some 999)) then
    some .valueError
  else if !(pyLe (some 0) fakeendlevel && pyLe fakeendlevel endlevel &&
      pyLe endlevel (some 999)) then
    some .valueError
  else if !((creditslevel == some 0) ||
      (pyLe (some 1) fakeendlevel && pyLe fakeendlevel creditslevel &&
       pyLe creditslevel endlevel && pyLe endlevel (some 999))) then
    some .valueError
  else
    none

/-- The validation prefix of `patchexe`: the three string-length
checks in order, then the numeric checks.  All of it runs before the
file is opened for writing. -/
def validateRequest (r : PatchRequest) (fake credits : Option Int) :
    Option PatchError :=
  if strTooLong r.datfile DAT_LENGTH then some .stringTooLong
  else if strTooLong r.inifile INI_LENGTH then some .stringTooLong
  else if strTooLong r.iniheading HEADING_LENGTH then some .stringTooLong
  else validateLevels r.endlevel fake credits

/-- `if s is not None: writestring(exe, s, off)`. -/
def stepStr (img : Image) (s : Option (List Nat)) (off : Nat) : Image :=
  match s with
  | some v => writestring img v off
  | none => img

/-- `if v is not None: for off in offs: writeword(exe, v, off)`. -/
def stepWords (img : Image) (v : Option Int) (offs : List Nat) : Image :=
  match v with
  | some x => offs.foldl (fun im off => writeword im x off) img
  | none => img

/-- The credits loop: word plus trailing opcode byte at each offset. -/
def stepCredits (img : Image) (v : Option Int) : Image :=
  match v with
  | some x => CREDITSLEVEL_OFFSETS.foldl (fun im off => writecredits im x off) img
  | none => img

/-- `if soundon is not None: seek(SOUND_OFFSET); write 0x01 or 0x00`. -/
def stepSound (img : Image) (so : Option Bool) : Image :=
  match so with
  | some b => update img SOUND_OFFSET (if b then 1 else 0)
  | none => img

/-- `if decade is not None: patchdecade(exe, decade)`; on the failed
assertion the exception escapes and the file keeps the bytes written
so far. -/
def decadeStep (img : Image) (d : Option Bool) : PatchOutcome :=
  match d with
  | some en =>
    match patchdecade img en with
    | .error e => ⟨some e, img⟩
    | .ok i => ⟨none, i⟩
  | none => ⟨none, img⟩

/-- The image after the first six write steps of `patchexe`, in
source order: datfile, inifile, iniheading, end level words, fake end
level words, credits words with opcode bytes. -/
def imgAfterWrites (img : Image) (r : PatchRequest) (fake credits : Option Int) :
    Image :=
  stepCredits
    (stepWords
      (stepWords
        (stepStr
          (stepStr
            (stepStr img r.datfile DAT_OFFSET)
            r.inifile INI_OFFSET)
          r.iniheading HEADING_OFFSET)
        r.endlevel ENDLEVEL_OFFSETS)
      fake FAKEENDLEVEL_OFFSETS)
    credits

/-- The write phase of `patchexe` (the body of the `with open` block):
the six write steps, then the decade byte (guarded by the assertion),
then the sound byte. -/
def applyWrites (img : Image) (r : PatchRequest) (fake credits : Option Int) :
    PatchOutcome :=
  let o := decadeStep (imgAfterWrites img r fake credits) r.decade
  match o.err with
  | some e => ⟨some e, o.image⟩
  | none => ⟨none, stepSound o.image r.soundon⟩

/-- `patchexe`: resolve defaults, validate, then write.  A validation
failure raises before the file is opened, so the image is returned
unchanged in that case. -/
def patchexe (img : Image) (r : PatchRequest) : PatchOutcome :=
  let fake := resolveOpt r.fakeendlevel r.endlevel
  let credits := resolveOpt r.creditslevel fake
  match validateRequest r fake credits with
  | some e => ⟨some e, img⟩
  | none => applyWrites img r fake credits

/-- The fake end level actually used by `patchexe` after default
resolution: the request value, or the end level when unset. -/
def resolvedFake (r : PatchRequest) : Option Int :=
  resolveOpt r.fakeendlevel r.endlevel

/-- The credits level actually used by `patchexe` after default
resolution: the request value, or the resolved fake end level when
unset. -/
def resolvedCredits (r : PatchRequest) : Option Int :=
  resolveOpt r.creditslevel (resolvedFake r)

/-- The byte offsets a successful `patchexe` call may write for a
given request, after default resolution: for each string field its
bytes plus the zero terminator, the two-byte words of each level
field at all declared offsets, the opcode byte after each credits
word, and the decade and sound flag bytes when requested. -/
def inWriteRegion (r : PatchRequest) (i : Nat) : Bool :=
  (match r.datfile with
   | some s => decide (DAT_OFFSET ≤ i ∧ i ≤ DAT_OFFSET + s.length)
   | none => false) ||
  (match r.inifile with
   | some s => decide (INI_OFFSET ≤ i ∧ i ≤ INI_OFFSET + s.length)
   | none => false) ||
  (match r.iniheading with
   | some s => decide (HEADING_OFFSET ≤ i ∧ i ≤ HEADING_OFFSET + s.length)
   | none => false) ||
  (match r.endlevel with
   | some _ => ENDLEVEL_OFFSETS.any (fun o => decide (o ≤ i ∧ i < o + 2))
   | none => false) ||
  (match resolvedFake r with
   | some _ => FAKEENDLEVEL_OFFSETS.any (fun o => decide (o ≤ i ∧ i < o + 2))
   | none => false) ||
  (match resolvedCredits r with
   | some _ => CREDITSLEVEL_OFFSETS.any (fun o => decide (o ≤ i ∧ i < o + 3))
   | none => false) ||
  (match r.decade with
   | some _ => decide (i = DECADE_OFFSET)
   | none => false) ||
  (match r.soundon with
   | some _ => decide (i = SOUND_OFFSET)
   | none => false)

/-- `readstring`: collect bytes from `off` until a zero byte or
`maxlen` bytes, whichever comes first. -/
def readstring (img : Image) (off : Nat) : Nat → List Nat
  | 0 => []
  | maxlen + 1 =>
    let c := img off
    if c = 0 then [] else c :: readstring img (off + 1) maxlen

/-- `readword`: decode a little-endian word at `off`, signed
(`"<h"`) when `signed` is true, unsigned (`"<H"`) otherwise. -/
def readword (img : Image) (off : Nat) (signed : Bool) : Int :=
  let u : Nat := img off + 256 * img (off + 1)
  if signed && decide (32768 ≤ u) then (u : Int) - 65536 else (u : Int)

/-- `readdecade`: the decade byte compared against the "on" value. -/
def readdecade (img : Image) : Bool :=
  img DECADE_OFFSET == DECADE_ON_BYTE

/-- A value in the dictionary `readexe` returns. -/
inductive RVal
  | str (s : List Nat)
  | ints (l : List Int)
  | bool (b : Bool)
deriving DecidableEq, Repr

/-- `readexe`: the report dictionary, with one entry per key the
source inserts, in insertion order.  All level words are read with
`signed=True` (the default of `readword`). -/
def readexe (img : Image) : List (String × RVal) :=
  [("datfile", .str (readstring img DAT_OFFSET DAT_LENGTH)),
   ("inifile", .str (readstring img INI_OFFSET INI_LENGTH)),
   ("iniheading", .str (readstring img HEADING_OFFSET HEADING_LENGTH)),
   ("endlevel", .ints (ENDLEVEL_OFFSETS.map (fun off => readword img off true))),
   ("fakeendlevel", .ints (FAKEENDLEVEL_OFFSETS.map (fun off => readword img off true))),
   ("creditslevel", .ints (CREDITSLEVEL_OFFSETS.map (fun off => readword img off true))),
   ("decade", .bool (readdecade img))]

/-- The error `checkexe` can raise. -/
inductive ExeError
  | invalidExe
deriving DecidableEq, Repr

/-- `checkexe`: the image validator, a pure size check. -/
def checkexe (size : Nat) : Option ExeError :=
  if size < CHIPS_EXE_SIZE then some .invalidExe else none

/-- `LevelsetInfo.CHIPSSIG`. -/
def CHIPSSIG : List Nat := [0xac, 0xaa]

/-- Failures of `LevelsetInfo.__init__`: the signature check, or the
`struct.error` from unpacking a short read of the count field. -/
inductive LevelsetError
  | notALevelset
  | structError
deriving DecidableEq, Repr

/-- `LevelsetInfo.__init__`: read 2 signature bytes, 2 version bytes
(never inspected), check the signature, then unpack the level count as
an unsigned little-endian word.  A file shorter than 2 bytes yields a
short signature, which fails the signature check; a good signature
with fewer than 2 count bytes is a `struct.error`. -/
def parseLevelset (bs : List Nat) : Except LevelsetError Nat :=
  let sig := bs.take 2
  if sig ≠ CHIPSSIG then .error .notALevelset
  else
    match (bs.drop 4).take 2 with
    | [b0, b1] => .ok (b0 + 256 * b1)
    | _ => .error .structError

/-- Python-2 `str.upper()` on one byte: ASCII letters only. -/
def upperByte (b : Nat) : Nat :=
  if 97 ≤ b ∧ b ≤ 122 then b - 32 else b

/-- Python-2 `str.upper()` on a byte string. -/
def pyUpper (s : List Nat) : List Nat := s.map upperByte

/-- A Python-2 byte string literal, from its ASCII text. -/
def strBytes (s : String) : List Nat := s.data.map Char.toNat

/-- `DEFAULT_DAT = "CHIPS.DAT"`. -/
def DEFAULT_DAT : List Nat := strBytes "CHIPS.DAT"

/-- The parameter derivation in `playchip`: end level from the header
count; fake end level 144 exactly for a 149-level set; credits level
145 exactly when the installed name uppercases to the default data
file name, else 0. -/
def deriveParams (count : Nat) (setname : List Nat) : Int × Option Int × Int :=
  let endlevel : Int := count
  let fake : Option Int := if count = 149 then some 144 else none
  let credits : Int := if pyUpper setname = DEFAULT_DAT then 145 else 0
  (endlevel, fake, credits)

/-- A concrete base image every byte of which is the legacy-message
"off" value (so the decade assertion passes). -/
def imgD : Image := fun _ => 0xd1

/-- A concrete base image of all zero bytes (the decade assertion
fails on it). -/
def imgZ : Image := fun _ => 0

/-- A concrete full request used to instantiate the round-trip. -/
def reqC1 : PatchRequest :=
  { datfile := some [67], inifile := some [99], iniheading := some [84],
    endlevel := some 149, fakeendlevel := some 144, creditslevel := some 145,
    decade := some true, soundon := some true }

/-! ### Basic lemmas about the write primitives -/

theorem update_self (img : Image) (off b : Nat) : update img off b off = b := by
  simp [update]

theorem update_other (img : Image) (off b i : Nat) (h : i ≠ off) :
    update img off b i = img i := by
  simp [update, h]

theorem writeBytes_frame (l : List Nat) (img : Image) (off i : Nat)
    (h : i < off ∨ off + l.length ≤ i) : writeBytes img off l i = img i := by
  induction l generalizing img off with
  | nil => rfl
  | cons b rest ih =>
    simp only [writeBytes]
    rw [ih _ _ (by simp at h ⊢; omega)]
    exact update_other _ _ _ _ (by simp at h; omega)

theorem writeBytes_get (l : List Nat) (img : Image) (off k : Nat) (h : k < l.length) :
    writeBytes img off l (off + k) = l.get ⟨k, h⟩ := by
  induction l generalizing img off k with
  | nil => simp at h
  | cons b rest ih =>
    simp only [writeBytes]
    cases k with
    | zero =>
      rw [writeBytes_frame _ _ _ _ (by omega)]
      simpa using update_self img off b
    | succ k =>
      have : off + (k + 1) = (off + 1) + k := by omega
      rw [this, ih _ _ _ (by simpa using h)]
      rfl

theorem writestring_frame (img : Image) (s : List Nat) (off i : Nat)
    (h : ¬ (off ≤ i ∧ i ≤ off + s.length)) : writestring img s off i = img i := by
  apply writeBytes_frame
  simp only [List.length_append, List.length_cons, List.length_nil]
  omega

theorem writestring_get (img : Image) (s : List Nat) (off k : Nat) (h : k < s.length) :
    writestring img s off (off + k) = s.get ⟨k, h⟩ := by
  rw [writestring, writeBytes_get (s ++ [0]) img off k (by simp; omega)]
  exact List.get_append_left _ _ _

theorem writestring_term (img : Image) (s : List Nat) (off : Nat) :
    writestring img s off (off + s.length) = 0 := by
  rw [writestring, writeBytes_get (s ++ [0]) img off s.length (by simp)]
  simp [List.get_append_right]

theorem writeword_frame (img : Image) (v : Int) (off i : Nat)
    (h : ¬ (off ≤ i ∧ i < off + 2)) : writeword img v off i = img i := by
  apply writeBytes_frame
  simp only [pack16, List.length_cons, List.length_nil]
  omega

theorem writeword_lo (img : Image) (v : Int) (off : Nat) :
    writeword img v off off = pack16lo v := by
  have := writeBytes_get (pack16 v) img off 0 (by simp [pack16])
  simpa [pack16] using this

theorem writeword_hi (img : Image) (v : Int) (off : Nat) :
    writeword img v off (off + 1) = pack16hi v := by
  have := writeBytes_get (pack16 v) img off 1 (by simp [pack16])
  simpa [pack16] using this

theorem writecredits_frame (img : Image) (v : Int) (off i : Nat)
    (h : ¬ (off ≤ i ∧ i < off + 3)) : writecredits img v off i = img i := by
  rw [writecredits, update_other _ _ _ _ (by omega)]
  exact writeword_frame _ _ _ _ (by omega)

theorem writecredits_lo (img : Image) (v : Int) (off : Nat) :
    writecredits img v off off = pack16lo v := by
  rw [writecredits, update_other _ _ _ _ (by omega)]
  exact writeword_lo _ _ _

theorem writecredits_hi (img : Image) (v : Int) (off : Nat) :
    writecredits img v off (off + 1) = pack16hi v := by
  rw [writecredits, update_other _ _ _ _ (by omega)]
  exact writeword_hi _ _ _

theorem writecredits_op (img : Image) (v : Int) (off : Nat) :
    writecredits img v off (off + 2) = (if 0 < v then 0x7c else 0x75) := by
  rw [writecredits]
  exact update_self _ _ _

/-! ### Frame lemmas for the write steps -/

theorem stepStr_frame (img : Image) (s : Option (List Nat)) (off i : Nat)
    (h : ∀ v, s = some v → ¬ (off ≤ i ∧ i ≤ off + v.length)) :
    stepStr img s off i = img i := by
  cases s with
  | none => rfl
  | some v => exact writestring_frame _ _ _ _ (h v rfl)

theorem foldl_writeword_frame (offs : List Nat) (v : Int) (img : Image) (i : Nat)
    (h : ∀ o ∈ offs, ¬ (o ≤ i ∧ i < o + 2)) :
    offs.foldl (fun im off => writeword im v off) img i = img i := by
  induction offs generalizing img with
  | nil => rfl
  | cons o rest ih =>
    simp only [List.foldl_cons]
    rw [ih _ (fun x hx => h x (List.mem_cons_of_mem _ hx))]
    exact writeword_frame _ _ _ _ (h o (List.mem_cons_self _ _))

theorem stepWords_frame (img : Image) (v : Option Int) (offs : List Nat) (i : Nat)
    (h : ∀ x, v = some x → ∀ o ∈ offs, ¬ (o ≤ i ∧ i < o + 2)) :
    stepWords img v offs i = img i := by
  cases v with
  | none => rfl
  | some x => exact foldl_writeword_frame _ _ _ _ (h x rfl)

theorem stepCredits_frame (img : Image) (v : Option Int) (i : Nat)
    (h : ∀ x, v = some x → ∀ o ∈ CREDITSLEVEL_OFFSETS, ¬ (o ≤ i ∧ i < o + 3)) :
    stepCredits img v i = img i := by
  cases v with
  | none => rfl
  | some x =>
    have h1 := h x rfl 0x9f85 (by simp [CREDITSLEVEL_OFFSETS])
    have h2 := h x rfl 0xa6d9 (by simp [CREDITSLEVEL_OFFSETS])
    show (CREDITSLEVEL_OFFSETS.foldl (fun im off => writecredits im x off) img) i = img i
    simp only [CREDITSLEVEL_OFFSETS, List.foldl_cons, List.foldl_nil]
    rw [writecredits_frame _ _ _ _ h2, writecredits_frame _ _ _ _ h1]

theorem stepSound_frame (img : Image) (so : Option Bool) (i : Nat)
    (h : ∀ b, so = some b → i ≠ SOUND_OFFSET) : stepSound img so i = img i := by
  cases so with
  | none => rfl
  | some b => exact update_other _ _ _ _ (h b rfl)

theorem decadeStep_frame (img : Image) (d : Option Bool) (i : Nat)
    (h : i ≠ DECADE_OFFSET) : (decadeStep img d).image i = img i := by
  cases d with
  | none => rfl
  | some en =>
    by_cases hb : img DECADE_OFFSET = DECADE_OFF_BYTE ∨ img DECADE_OFFSET = DECADE_ON_BYTE
    · simp only [decadeStep, patchdecade, if_pos hb]
      exact update_other _ _ _ _ h
    · simp only [decadeStep, patchdecade, if_neg hb]

theorem decadeStep_err_none (img : Image) (d : Option Bool) :
    (decadeStep img d).err = none ↔
      (∀ b, d = some b →
        img DECADE_OFFSET = DECADE_OFF_BYTE ∨ img DECADE_OFFSET = DECADE_ON_BYTE) := by
  cases d with
  | none => simp [decadeStep]
  | some en =>
    by_cases hb : img DECADE_OFFSET = DECADE_OFF_BYTE ∨ img DECADE_OFFSET = DECADE_ON_BYTE
    · simp only [decadeStep, patchdecade, if_pos hb]
      simpa using hb
    · simp only [decadeStep, patchdecade, if_neg hb]
      simpa using hb

theorem decadeStep_byte (img : Image) (en : Bool)
    (h : img DECADE_OFFSET = DECADE_OFF_BYTE ∨ img DECADE_OFFSET = DECADE_ON_BYTE) :
    (decadeStep img (some en)).image DECADE_OFFSET =
      (if en then DECADE_ON_BYTE else DECADE_OFF_BYTE) := by
  simp only [decadeStep, patchdecade, if_pos h]
  exact update_self _ _ _

/-! ### Read-back lemmas -/

/-- `readstring` returns exactly `s` when the bytes of `s` (free of
zero bytes) sit at `off` and are followed by a zero terminator (or the
maximum length cuts the scan off exactly at the end of `s`). -/
theorem readstring_spec (s : List Nat) (img : Image) (off maxlen : Nat)
    (hlen : s.length ≤ maxlen) (hz : 0 ∉ s)
    (hbytes : ∀ k (hk : k < s.length), img (off + k) = s.get ⟨k, hk⟩)
    (hterm : s.length < maxlen → img (off + s.length) = 0) :
    readstring img off maxlen = s := by
  induction s generalizing off maxlen with
  | nil =>
    cases maxlen with
    | zero => rfl
    | succ n =>
      have h0 : img off = 0 := by simpa using hterm (by simp)
      simp [readstring, h0]
  | cons b rest ih =>
    cases maxlen with
    | zero => simp at hlen
    | succ n =>
      have hb : img off = b := by simpa using hbytes 0 (by simp)
      have hbne : b ≠ 0 := fun hh => hz (by simp [hh])
      simp only [readstring, hb, if_neg hbne]
      refine congrArg _ (ih (off + 1) n (by simpa using hlen)
        (fun hh => hz (List.mem_cons_of_mem _ hh)) ?_ ?_)
      · intro k hk
        have := hbytes (k + 1) (by simpa using hk)
        rw [show off + (k + 1) = off + 1 + k by omega] at this
        simpa using this
      · intro hh
        have := hterm (by simpa using hh)
        rw [show off + (b :: rest).length = off + 1 + rest.length by
          simp only [List.length_cons]; omega] at this
        exact this

/-- Decoding a freshly packed word: for values in the validated range
the signed little-endian decode returns the packed value. -/
theorem readword_pack (img : Image) (off : Nat) (v : Int)
    (h0 : 0 ≤ v) (h1 : v < 32768)
    (hlo : img off = pack16lo v) (hhi : img (off + 1) = pack16hi v) :
    readword img off true = v := by
  have hv : v % 65536 = v := Int.emod_eq_of_lt h0 (by omega)
  have hu : img off + 256 * img (off + 1) = v.toNat := by
    rw [hlo, hhi, pack16lo, pack16hi, hv]
    exact Nat.mod_add_div _ _
  have hlt : v.toNat < 32768 := by omega
  simp only [readword, hu]
  rw [if_neg (by simp; omega)]
  omega

/-! ### Validation characterization -/

theorem strTooLong_false (s : Option (List Nat)) (maxlen : Nat)
    (h : strTooLong s maxlen = false) :
    ∀ v, s = some v → v.length ≤ maxlen := by
  intro v hv
  subst hv
  simpa [strTooLong] using h

theorem strTooLong_false_of (s : Option (List Nat)) (maxlen : Nat)
    (h : ∀ v, s = some v → v.length ≤ maxlen) : strTooLong s maxlen = false := by
  cases s with
  | none => rfl
  | some v => simpa [strTooLong] using h v rfl

/-- The numeric checks succeed exactly on fully present values that
satisfy the documented range and ordering constraints. -/
theorem validateLevels_none_iff (e f c : Option Int) :
    validateLevels e f c = none ↔
      ∃ ev fv cv, e = some ev ∧ f = some fv ∧ c = some cv ∧
        1 ≤ ev ∧ ev ≤ 999 ∧ 0 ≤ fv ∧ fv ≤ ev ∧
        (cv = 0 ∨ (1 ≤ fv ∧ fv ≤ cv ∧ cv ≤ ev)) := by
  cases e <;> cases f <;> cases c <;>
    simp only [validateLevels, pyLe] <;>
    split_ifs <;>
    simp_all <;>
    omega

theorem validateRequest_none_iff (r : PatchRequest) (fake credits : Option Int) :
    validateRequest r fake credits = none ↔
      strTooLong r.datfile DAT_LENGTH = false ∧
      strTooLong r.inifile INI_LENGTH = false ∧
      strTooLong r.iniheading HEADING_LENGTH = false ∧
      validateLevels r.endlevel fake credits = none := by
  unfold validateRequest
  split_ifs <;> simp_all

/-! ### Structure of `patchexe` -/

theorem patchexe_eq (img : Image) (r : PatchRequest) :
    patchexe img r =
      match validateRequest r (resolvedFake r) (resolvedCredits r) with
      | some e => ⟨some e, img⟩
      | none => applyWrites img r (resolvedFake r) (resolvedCredits r) := rfl

theorem patchexe_validate_some (img : Image) (r : PatchRequest) (e : PatchError)
    (h : validateRequest r (resolvedFake r) (resolvedCredits r) = some e) :
    patchexe img r = ⟨some e, img⟩ := by
  rw [patchexe_eq, h]

theorem patchexe_validate_none (img : Image) (r : PatchRequest)
    (h : validateRequest r (resolvedFake r) (resolvedCredits r) = none) :
    patchexe img r = applyWrites img r (resolvedFake r) (resolvedCredits r) := by
  rw [patchexe_eq, h]

theorem patchexe_ok_validate (img : Image) (r : PatchRequest)
    (hok : (patchexe img r).err = none) :
    validateRequest r (resolvedFake r) (resolvedCredits r) = none := by
  cases h : validateRequest r (resolvedFake r) (resolvedCredits r) with
  | none => rfl
  | some e =>
    rw [patchexe_validate_some _ _ _ h] at hok
    simp at hok

theorem applyWrites_err (img : Image) (r : PatchRequest) (fake credits : Option Int) :
    (applyWrites img r fake credits).err =
      (decadeStep (imgAfterWrites img r fake credits) r.decade).err := by
  unfold applyWrites
  cases h : (decadeStep (imgAfterWrites img r fake credits) r.decade).err <;>
    simp [h]

theorem applyWrites_ok_image (img : Image) (r : PatchRequest) (fake credits : Option Int)
    (hok : (decadeStep (imgAfterWrites img r fake credits) r.decade).err = none) :
    (applyWrites img r fake credits).image =
      stepSound (decadeStep (imgAfterWrites img r fake credits) r.decade).image
        r.soundon := by
  unfold applyWrites
  simp only [hok]

theorem patchexe_ok_decade (img : Image) (r : PatchRequest)
    (hok : (patchexe img r).err = none) :
    (decadeStep (imgAfterWrites img r (resolvedFake r) (resolvedCredits r))
        r.decade).err = none := by
  rw [patchexe_validate_none _ _ (patchexe_ok_validate _ _ hok),
    applyWrites_err] at hok
  exact hok

theorem patchexe_ok_image (img : Image) (r : PatchRequest)
    (hok : (patchexe img r).err = none) :
    (patchexe img r).image =
      stepSound
        (decadeStep (imgAfterWrites img r (resolvedFake r) (resolvedCredits r))
          r.decade).image r.soundon := by
  rw [patchexe_validate_none _ _ (patchexe_ok_validate _ _ hok)]
  exact applyWrites_ok_image _ _ _ _ (patchexe_ok_decade _ _ hok)

/-- On a successful patch, the length checks passed. -/
theorem patchexe_ok_strlen (img : Image) (r : PatchRequest)
    (hok : (patchexe img r).err = none) :
    (∀ v, r.datfile = some v → v.length ≤ DAT_LENGTH) ∧
    (∀ v, r.inifile = some v → v.length ≤ INI_LENGTH) ∧
    (∀ v, r.iniheading = some v → v.length ≤ HEADING_LENGTH) := by
  have h := (validateRequest_none_iff _ _ _).1 (patchexe_ok_validate _ _ hok)
  exact ⟨strTooLong_false _ _ h.1, strTooLong_false _ _ h.2.1,
    strTooLong_false _ _ h.2.2.1⟩

/-- On a successful patch, the numeric checks passed: all three level
values are present after resolution and satisfy the ordering. -/
theorem patchexe_ok_levels (img : Image) (r : PatchRequest)
    (hok : (patchexe img r).err = none) :
    ∃ ev fv cv, r.endlevel = some ev ∧ resolvedFake r = some fv ∧
      resolvedCredits r = some cv ∧
      1 ≤ ev ∧ ev ≤ 999 ∧ 0 ≤ fv ∧ fv ≤ ev ∧
      (cv = 0 ∨ (1 ≤ fv ∧ fv ≤ cv ∧ cv ≤ ev)) := by
  have h := (validateRequest_none_iff _ _ _).1 (patchexe_ok_validate _ _ hok)
  exact (validateLevels_none_iff _ _ _).1 h.2.2.2

theorem DAT_LENGTH_eq : DAT_LENGTH = 9 := rfl

theorem INI_LENGTH_eq : INI_LENGTH = 11 := rfl

/-! ### Bytes of the patched image, field by field -/

/-- Bytes in the string area (`0x4A68 ≤ p < 0x4AE5`) are unaffected
by the word, credits, decade and sound writes of a successful patch. -/
theorem patch_ok_str_area (img : Image) (r : PatchRequest) (p : Nat)
    (hok : (patchexe img r).err = none)
    (hp1 : 0x4A68 ≤ p) (hp2 : p < 0x4AE5) :
    (patchexe img r).image p =
      stepStr (stepStr (stepStr img r.datfile DAT_OFFSET) r.inifile INI_OFFSET)
        r.iniheading HEADING_OFFSET p := by
  rw [patchexe_ok_image _ _ hok]
  rw [stepSound_frame _ _ _ (by intro b hb; simp only [SOUND_OFFSET]; omega)]
  rw [decadeStep_frame _ _ _ (by simp only [DECADE_OFFSET]; omega)]
  unfold imgAfterWrites
  rw [stepCredits_frame _ _ _ (by
    intro x hx o ho
    simp only [CREDITSLEVEL_OFFSETS, List.mem_cons, List.not_mem_nil, or_false] at ho
    rcases ho with rfl | rfl <;> omega)]
  rw [stepWords_frame _ _ _ _ (by
    intro x hx o ho
    simp only [FAKEENDLEVEL_OFFSETS, List.mem_cons, List.not_mem_nil, or_false] at ho
    rcases ho with rfl | rfl <;> omega)]
  rw [stepWords_frame _ _ _ _ (by
    intro x hx o ho
    simp only [ENDLEVEL_OFFSETS, List.mem_cons, List.not_mem_nil, or_false] at ho
    rcases ho with rfl | rfl | rfl <;> omega)]

/-- Bytes of the datfile string after a successful patch. -/
theorem patch_ok_dat_bytes (img : Image) (r : PatchRequest) (v : List Nat)
    (hok : (patchexe img r).err = none) (hv : r.datfile = some v) :
    (∀ k (hk : k < v.length),
      (patchexe img r).image (DAT_OFFSET + k) = v.get ⟨k, hk⟩) ∧
    (patchexe img r).image (DAT_OFFSET + v.length) = 0 := by
  obtain ⟨hdat, hini, hhead⟩ := patchexe_ok_strlen _ _ hok
  have hvlen := hdat v hv
  rw [DAT_LENGTH_eq] at hvlen
  have harea : ∀ k, k ≤ v.length →
      (patchexe img r).image (DAT_OFFSET + k) =
        writestring img v DAT_OFFSET (DAT_OFFSET + k) := by
    intro k hk
    rw [patch_ok_str_area _ _ _ hok (by simp only [DAT_OFFSET]; omega)
      (by simp only [DAT_OFFSET]; omega)]
    rw [stepStr_frame _ _ _ _ (by
      intro w hw
      have := hhead w hw
      simp only [HEADING_OFFSET, DAT_OFFSET, HEADING_LENGTH] at *
      omega)]
    rw [stepStr_frame _ _ _ _ (by
      intro w hw
      have := hini w hw
      rw [INI_LENGTH_eq] at this
      simp only [INI_OFFSET, DAT_OFFSET] at *
      omega)]
    simp [stepStr, hv]
  refine ⟨fun k hk => ?_, ?_⟩
  · rw [harea k (Nat.le_of_lt hk), writestring_get _ _ _ _ hk]
  · rw [harea _ (Nat.le_refl _), writestring_term]

/-- Bytes of the inifile string after a successful patch. -/
theorem patch_ok_ini_bytes (img : Image) (r : PatchRequest) (v : List Nat)
    (hok : (patchexe img r).err = none) (hv : r.inifile = some v) :
    (∀ k (hk : k < v.length),
      (patchexe img r).image (INI_OFFSET + k) = v.get ⟨k, hk⟩) ∧
    (patchexe img r).image (INI_OFFSET + v.length) = 0 := by
  obtain ⟨hdat, hini, hhead⟩ := patchexe_ok_strlen _ _ hok
  have hvlen := hini v hv
  rw [INI_LENGTH_eq] at hvlen
  have harea : ∀ k, k ≤ v.length →
      (patchexe img r).image (INI_OFFSET + k) =
        writestring (stepStr img r.datfile DAT_OFFSET) v INI_OFFSET
          (INI_OFFSET + k) := by
    intro k hk
    rw [patch_ok_str_area _ _ _ hok (by simp only [INI_OFFSET]; omega)
      (by simp only [INI_OFFSET]; omega)]
    rw [stepStr_frame _ _ _ _ (by
      intro w hw
      simp only [HEADING_OFFSET, INI_OFFSET] at *
      omega)]
    simp [stepStr, hv]
  refine ⟨fun k hk => ?_, ?_⟩
  · rw [harea k (Nat.le_of_lt hk), writestring_get _ _ _ _ hk]
  · rw [harea _ (Nat.le_refl _), writestring_term]

/-- Bytes of the iniheading string after a successful patch. -/
theorem patch_ok_head_bytes (img : Image) (r : PatchRequest) (v : List Nat)
    (hok : (patchexe img r).err = none) (hv : r.iniheading = some v) :
    (∀ k (hk : k < v.length),
      (patchexe img r).image (HEADING_OFFSET + k) = v.get ⟨k, hk⟩) ∧
    (patchexe img r).image (HEADING_OFFSET + v.length) = 0 := by
  obtain ⟨hdat, hini, hhead⟩ := patchexe_ok_strlen _ _ hok
  have hvlen := hhead v hv
  have harea : ∀ k, k ≤ v.length →
      (patchexe img r).image (HEADING_OFFSET + k) =
        writestring (stepStr (stepStr img r.datfile DAT_OFFSET) r.inifile
          INI_OFFSET) v HEADING_OFFSET (HEADING_OFFSET + k) := by
    intro k hk
    simp only [HEADING_LENGTH] at hvlen
    rw [patch_ok_str_area _ _ _ hok (by simp only [HEADING_OFFSET]; omega)
      (by simp only [HEADING_OFFSET]; omega)]
    simp [stepStr, hv]
  refine ⟨fun k hk => ?_, ?_⟩
  · rw [harea k (Nat.le_of_lt hk), writestring_get _ _ _ _ hk]
  · rw [harea _ (Nat.le_refl _), writestring_term]

/-- Bytes of the end-level words after a successful patch. -/
theorem patch_ok_end_words (img : Image) (r : PatchRequest) (ev : Int)
    (hok : (patchexe img r).err = none) (hv : r.endlevel = some ev) :
    ∀ o ∈ ENDLEVEL_OFFSETS,
      (patchexe img r).image o = pack16lo ev ∧
      (patchexe img r).image (o + 1) = pack16hi ev := by
  have harea : ∀ p, 0x91c0 ≤ p → p < 0x91c2 ∨ 0xba14 ≤ p ∧ p < 0xba16 ∨
      0xbb1c ≤ p ∧ p < 0xbb1e →
      (patchexe img r).image p =
        stepWords (stepStr (stepStr (stepStr img r.datfile DAT_OFFSET)
          r.inifile INI_OFFSET) r.iniheading HEADING_OFFSET)
          r.endlevel ENDLEVEL_OFFSETS p := by
    intro p hp1 hp2
    rw [patchexe_ok_image _ _ hok]
    rw [stepSound_frame _ _ _ (by intro b hb; simp only [SOUND_OFFSET]; omega)]
    rw [decadeStep_frame _ _ _ (by simp only [DECADE_OFFSET]; omega)]
    unfold imgAfterWrites
    rw [stepCredits_frame _ _ _ (by
      intro x hx o ho
      simp only [CREDITSLEVEL_OFFSETS, List.mem_cons, List.not_mem_nil, or_false] at ho
      rcases ho with rfl | rfl <;> omega)]
    rw [stepWords_frame _ _ _ _ (by
      intro x hx o ho
      simp only [FAKEENDLEVEL_OFFSETS, List.mem_cons, List.not_mem_nil, or_false] at ho
      rcases ho with rfl | rfl <;> omega)]
  intro o ho
  simp only [ENDLEVEL_OFFSETS, List.mem_cons, List.not_mem_nil, or_false] at ho
  have hw : stepWords (stepStr (stepStr (stepStr img r.datfile DAT_OFFSET)
      r.inifile INI_OFFSET) r.iniheading HEADING_OFFSET)
      r.endlevel ENDLEVEL_OFFSETS =
      writeword (writeword (writeword (stepStr (stepStr (stepStr img
        r.datfile DAT_OFFSET) r.inifile INI_OFFSET) r.iniheading
        HEADING_OFFSET) ev 0x91c0) ev 0xba14) ev 0xbb1c := by
    simp [stepWords, hv, ENDLEVEL_OFFSETS]
  rcases ho with rfl | rfl | rfl
  · constructor
    · rw [harea _ (by omega) (by omega), hw,
        writeword_frame _ _ _ _ (by omega), writeword_frame _ _ _ _ (by omega),
        writeword_lo]
    · rw [harea _ (by omega) (by omega), hw,
        writeword_frame _ _ _ _ (by omega), writeword_frame _ _ _ _ (by omega),
        writeword_hi]
  · constructor
    · rw [harea _ (by omega) (by omega), hw,
        writeword_frame _ _ _ _ (by omega), writeword_lo]
    · rw [harea _ (by omega) (by omega), hw,
        writeword_frame _ _ _ _ (by omega), writeword_hi]
  · constructor
    · rw [harea _ (by omega) (by omega), hw, writeword_lo]
    · rw [harea _ (by omega) (by omega), hw, writeword_hi]

/-- Bytes of the fake-end-level words after a successful patch. -/
theorem patch_ok_fake_words (img : Image) (r : PatchRequest) (fv : Int)
    (hok : (patchexe img r).err = none) (hv : resolvedFake r = some fv) :
    ∀ o ∈ FAKEENDLEVEL_OFFSETS,
      (patchexe img r).image o = pack16lo fv ∧
      (patchexe img r).image (o + 1) = pack16hi fv := by
  have harea : ∀ p, 0x91b9 ≤ p → p < 0x91bb ∨ 0xbb14 ≤ p ∧ p < 0xbb16 →
      (patchexe img r).image p =
        stepWords (stepWords (stepStr (stepStr (stepStr img r.datfile
          DAT_OFFSET) r.inifile INI_OFFSET) r.iniheading HEADING_OFFSET)
          r.endlevel ENDLEVEL_OFFSETS) (resolvedFake r) FAKEENDLEVEL_OFFSETS p := by
    intro p hp1 hp2
    rw [patchexe_ok_image _ _ hok]
    rw [stepSound_frame _ _ _ (by intro b hb; simp only [SOUND_OFFSET]; omega)]
    rw [decadeStep_frame _ _ _ (by simp only [DECADE_OFFSET]; omega)]
    unfold imgAfterWrites
    rw [stepCredits_frame _ _ _ (by
      intro x hx o ho
      simp only [CREDITSLEVEL_OFFSETS, List.mem_cons, List.not_mem_nil, or_false] at ho
      rcases ho with rfl | rfl <;> omega)]
  intro o ho
  simp only [FAKEENDLEVEL_OFFSETS, List.mem_cons, List.not_mem_nil, or_false] at ho
  have hw : stepWords (stepWords (stepStr (stepStr (stepStr img r.datfile
      DAT_OFFSET) r.inifile INI_OFFSET) r.iniheading HEADING_OFFSET)
      r.endlevel ENDLEVEL_OFFSETS) (resolvedFake r) FAKEENDLEVEL_OFFSETS =
      writeword (writeword (stepWords (stepStr (stepStr (stepStr img
        r.datfile DAT_OFFSET) r.inifile INI_OFFSET) r.iniheading
        HEADING_OFFSET) r.endlevel ENDLEVEL_OFFSETS) fv 0x91b9) fv 0xbb14 := by
    simp [stepWords, hv, FAKEENDLEVEL_OFFSETS]
  rcases ho with rfl | rfl
  · constructor
    · rw [harea _ (by omega) (by omega), hw,
        writeword_frame _ _ _ _ (by omega), writeword_lo]
    · rw [harea _ (by omega) (by omega), hw,
        writeword_frame _ _ _ _ (by omega), writeword_hi]
  · constructor
    · rw [harea _ (by omega) (by omega), hw, writeword_lo]
    · rw [harea _ (by omega) (by omega), hw, writeword_hi]

/-- Bytes of the credits words and their trailing opcode bytes after
a successful patch. -/
theorem patch_ok_credits_bytes (img : Image) (r : PatchRequest) (cv : Int)
    (hok : (patchexe img r).err = none) (hv : resolvedCredits r = some cv) :
    ∀ o ∈ CREDITSLEVEL_OFFSETS,
      (patchexe img r).image o = pack16lo cv ∧
      (patchexe img r).image (o + 1) = pack16hi cv ∧
      (patchexe img r).image (o + 2) = (if 0 < cv then 0x7c else 0x75) := by
  have harea : ∀ p, 0x9f85 ≤ p → p < 0x9f88 ∨ 0xa6d9 ≤ p ∧ p < 0xa6dc →
      (patchexe img r).image p =
        imgAfterWrites img r (resolvedFake r) (resolvedCredits r) p := by
    intro p hp1 hp2
    rw [patchexe_ok_image _ _ hok]
    rw [stepSound_frame _ _ _ (by intro b hb; simp only [SOUND_OFFSET]; omega)]
    rw [decadeStep_frame _ _ _ (by simp only [DECADE_OFFSET]; omega)]
  intro o ho
  simp only [CREDITSLEVEL_OFFSETS, List.mem_cons, List.not_mem_nil, or_false] at ho
  have hw : imgAfterWrites img r (resolvedFake r) (resolvedCredits r) =
      writecredits (writecredits (stepWords (stepWords (stepStr (stepStr
        (stepStr img r.datfile DAT_OFFSET) r.inifile INI_OFFSET)
        r.iniheading HEADING_OFFSET) r.endlevel ENDLEVEL_OFFSETS)
        (resolvedFake r) FAKEENDLEVEL_OFFSETS) cv 0x9f85) cv 0xa6d9 := by
    unfold imgAfterWrites
    simp [stepCredits, hv, CREDITSLEVEL_OFFSETS]
  rcases ho with rfl | rfl
  · refine ⟨?_, ?_, ?_⟩
    · rw [harea _ (by omega) (by omega), hw,
        writecredits_frame _ _ _ _ (by omega), writecredits_lo]
    · rw [harea _ (by omega) (by omega), hw,
        writecredits_frame _ _ _ _ (by omega), writecredits_hi]
    · rw [harea _ (by omega) (by omega), hw,
        writecredits_frame _ _ _ _ (by omega), writecredits_op]
  · refine ⟨?_, ?_, ?_⟩
    · rw [harea _ (by omega) (by omega), hw, writecredits_lo]
    · rw [harea _ (by omega) (by omega), hw, writecredits_hi]
    · rw [harea _ (by omega) (by omega), hw, writecredits_op]

/-- The decade byte after a successful patch that requested it. -/
theorem patch_ok_decade_byte (img : Image) (r : PatchRequest) (b : Bool)
    (hok : (patchexe img r).err = none) (hb : r.decade = some b) :
    (patchexe img r).image DECADE_OFFSET =
      (if b then DECADE_ON_BYTE else DECADE_OFF_BYTE) := by
  rw [patchexe_ok_image _ _ hok]
  rw [stepSound_frame _ _ _ (by
    intro c hc
    simp only [SOUND_OFFSET, DECADE_OFFSET]
    omega)]
  have hd := patchexe_ok_decade _ _ hok
  rw [hb] at hd ⊢
  exact decadeStep_byte _ _ ((decadeStep_err_none _ _).1 hd b rfl)

theorem decadeStep_frame2 (img : Image) (d : Option Bool) (i : Nat)
    (h : ∀ b, d = some b → i ≠ DECADE_OFFSET) :
    (decadeStep img d).image i = img i := by
  cases d with
  | none => rfl
  | some en => exact decadeStep_frame _ _ _ (h en rfl)

theorem decadeStep_err_some (img : Image) (d : Option Bool) (e : PatchError)
    (h : (decadeStep img d).err = some e) : e = .assertFailed := by
  cases d with
  | none => simp [decadeStep] at h
  | some en =>
    by_cases hb : img DECADE_OFFSET = DECADE_OFF_BYTE ∨ img DECADE_OFFSET = DECADE_ON_BYTE
    · simp [decadeStep, patchdecade, if_pos hb] at h
    · simp [decadeStep, patchdecade, if_neg hb] at h
      exact h.symm

/-- Pointwise frame lemma for the six unconditional write steps. -/
theorem imgAfterWrites_frame (img : Image) (r : PatchRequest)
    (fake credits : Option Int) (i : Nat)
    (hdat : ∀ v, r.datfile = some v → ¬ (DAT_OFFSET ≤ i ∧ i ≤ DAT_OFFSET + v.length))
    (hini : ∀ v, r.inifile = some v → ¬ (INI_OFFSET ≤ i ∧ i ≤ INI_OFFSET + v.length))
    (hhead : ∀ v, r.iniheading = some v →
      ¬ (HEADING_OFFSET ≤ i ∧ i ≤ HEADING_OFFSET + v.length))
    (hend : ∀ x, r.endlevel = some x →
      ∀ o ∈ ENDLEVEL_OFFSETS, ¬ (o ≤ i ∧ i < o + 2))
    (hfake : ∀ x, fake = some x →
      ∀ o ∈ FAKEENDLEVEL_OFFSETS, ¬ (o ≤ i ∧ i < o + 2))
    (hcred : ∀ x, credits = some x →
      ∀ o ∈ CREDITSLEVEL_OFFSETS, ¬ (o ≤ i ∧ i < o + 3)) :
    imgAfterWrites img r fake credits i = img i := by
  unfold imgAfterWrites
  rw [stepCredits_frame _ _ _ hcred, stepWords_frame _ _ _ _ hfake,
    stepWords_frame _ _ _ _ hend, stepStr_frame _ _ _ _ hhead,
    stepStr_frame _ _ _ _ hini, stepStr_frame _ _ _ _ hdat]

/-- Pointwise frame lemma for the whole successful patch. -/
theorem patch_ok_frame (img : Image) (r : PatchRequest) (i : Nat)
    (hok : (patchexe img r).err = none)
    (hdat : ∀ v, r.datfile = some v → ¬ (DAT_OFFSET ≤ i ∧ i ≤ DAT_OFFSET + v.length))
    (hini : ∀ v, r.inifile = some v → ¬ (INI_OFFSET ≤ i ∧ i ≤ INI_OFFSET + v.length))
    (hhead : ∀ v, r.iniheading = some v →
      ¬ (HEADING_OFFSET ≤ i ∧ i ≤ HEADING_OFFSET + v.length))
    (hend : ∀ x, r.endlevel = some x →
      ∀ o ∈ ENDLEVEL_OFFSETS, ¬ (o ≤ i ∧ i < o + 2))
    (hfake : ∀ x, resolvedFake r = some x →
      ∀ o ∈ FAKEENDLEVEL_OFFSETS, ¬ (o ≤ i ∧ i < o + 2))
    (hcred : ∀ x, resolvedCredits r = some x →
      ∀ o ∈ CREDITSLEVEL_OFFSETS, ¬ (o ≤ i ∧ i < o + 3))
    (hdec : ∀ b, r.decade = some b → i ≠ DECADE_OFFSET)
    (hsnd : ∀ b, r.soundon = some b → i ≠ SOUND_OFFSET) :
    (patchexe img r).image i = img i := by
  rw [patchexe_ok_image _ _ hok, stepSound_frame _ _ _ hsnd,
    decadeStep_frame2 _ _ _ hdec,
    imgAfterWrites_frame _ _ _ _ _ hdat hini hhead hend hfake hcred]

/-! ### Congruence of the readers -/

theorem readstring_congr (a b : Image) (off maxlen : Nat)
    (h : ∀ k, k < maxlen → a (off + k) = b (off + k)) :
    readstring a off maxlen = readstring b off maxlen := by
  induction maxlen generalizing off with
  | zero => rfl
  | succ n ih =>
    have h0 : a off = b off := by simpa using h 0 (by omega)
    simp only [readstring, h0]
    by_cases hz : b off = 0
    · simp [hz]
    · rw [if_neg hz, if_neg hz]
      refine congrArg _ (ih (off + 1) (fun k hk => ?_))
      have := h (k + 1) (by omega)
      rw [show off + (k + 1) = off + 1 + k by omega] at this
      exact this

theorem readword_congr (a b : Image) (off : Nat) (s : Bool)
    (h0 : a off = b off) (h1 : a (off + 1) = b (off + 1)) :
    readword a off s = readword b off s := by
  simp only [readword, h0, h1]

/-! ### The report entries of `readexe` -/

theorem readexe_lookup_datfile (img : Image) :
    (readexe img).lookup "datfile" =
      some (.str (readstring img DAT_OFFSET DAT_LENGTH)) := rfl

theorem readexe_lookup_inifile (img : Image) :
    (readexe img).lookup "inifile" =
      some (.str (readstring img INI_OFFSET INI_LENGTH)) := rfl

theorem readexe_lookup_iniheading (img : Image) :
    (readexe img).lookup "iniheading" =
      some (.str (readstring img HEADING_OFFSET HEADING_LENGTH)) := rfl

theorem readexe_lookup_endlevel (img : Image) :
    (readexe img).lookup "endlevel" =
      some (.ints [readword img 0x91c0 true, readword img 0xba14 true,
        readword img 0xbb1c true]) := rfl

theorem readexe_lookup_fakeendlevel (img : Image) :
    (readexe img).lookup "fakeendlevel" =
      some (.ints [readword img 0x91b9 true, readword img 0xbb14 true]) := rfl

theorem readexe_lookup_creditslevel (img : Image) :
    (readexe img).lookup "creditslevel" =
      some (.ints [readword img 0x9f85 true, readword img 0xa6d9 true]) := rfl

theorem readexe_lookup_decade (img : Image) :
    (readexe img).lookup "decade" = some (.bool (readdecade img)) := rfl

/-! ### Claim theorems -/

/-- Claim C6: the level-collection header parser depends on exactly
the first 6 bytes; it fails with the not-a-levelset error if and only
if the first 2 bytes differ from the fixed magic signature (so the
error is raised regardless of the count bytes, even absent ones, i.e.
before the count is read); the sample header parses to level count
149; the count is decoded as an unsigned little-endian word with no
upper bound, and the version bytes are never inspected. -/
theorem c6_header_parse :
    (∀ bs : List Nat, parseLevelset bs = parseLevelset (bs.take 6)) ∧
    (∀ bs : List Nat,
      (parseLevelset bs = .error .notALevelset ↔ bs.take 2 ≠ CHIPSSIG)) ∧
    CHIPSSIG = [0xAC, 0xAA] ∧
    parseLevelset [0xAC, 0xAA, 0x01, 0x00, 0x95, 0x00] = .ok 149 ∧
    (∀ v0 v1 b0 b1 : Nat,
      parseLevelset [0xAC, 0xAA, v0, v1, b0, b1] = .ok (b0 + 256 * b1)) ∧
    parseLevelset [0xAC, 0xAA, 0x01, 0x00, 0xFF, 0xFF] = .ok 65535 := by
  refine ⟨?_, ?_, rfl, rfl, fun v0 v1 b0 b1 => rfl, rfl⟩
  · intro bs
    unfold parseLevelset
    have h2 : (bs.take 6).take 2 = bs.take 2 := by simp [List.take_take]
    have h4 : ((bs.take 6).drop 4).take 2 = (bs.drop 4).take 2 := by
      rw [List.drop_take]
      simp [List.take_take]
    rw [h2, h4]
  · intro bs
    constructor
    · intro h
      by_contra hne
      unfold parseLevelset at h
      rw [if_neg (by simp [hne])] at h
      rcases hl : (bs.drop 4).take 2 with _ | ⟨b0, _ | ⟨b1, _ | ⟨c, rest⟩⟩⟩ <;>
        rw [hl] at h <;> simp at h
    · intro hne
      unfold parseLevelset
      rw [if_pos hne]

/-- Claim C8: the parameter derivation is a pure function of the
header count and the installed name: end level is the count; fake end
level is 144 exactly when the count is 149 and unset otherwise;
credits level is 145 exactly when the name uppercases (Python-2 ASCII
upper, i.e. case-insensitive comparison) to "CHIPS.DAT" and 0
otherwise; the two scenario instances follow. -/
theorem c8_derivation :
    (∀ (count : Nat) (name : List Nat), deriveParams count name =
      ((count : Int),
       (if count = 149 then some (144 : Int) else none),
       (if pyUpper name = DEFAULT_DAT then (145 : Int) else 0))) ∧
    deriveParams 149 (strBytes "CHIPS.DAT") = (149, some 144, 145) ∧
    deriveParams 149 (strBytes "chips.dat") = (149, some 144, 145) ∧
    (deriveParams 149 (strBytes "CUSTOM.DAT")).2.2 = 0 ∧
    (deriveParams 149 (strBytes "CUSTOM.DAT")).1 = 149 ∧
    (deriveParams 149 (strBytes "CUSTOM.DAT")).2.1 = some 144 := by
  exact ⟨fun count name => rfl, by decide, by decide, by decide, by decide,
    by decide⟩

/-- Claim C5: the numeric validation, on default-resolved values,
rejects end level 0 and 1000 whatever the other fields are; rejects a
fake end level one above the end level; accepts credits level 0
whenever the other two levels pass their own checks; rejects credits
level 5 with fake end level 10 whatever the end level; and every
accepted combination has all three values present with 1 ≤ end ≤ 999,
0 ≤ fake ≤ end, and credits = 0 or 1 ≤ fake ≤ credits ≤ end. -/
theorem c5_numeric_validation :
    (∀ f c : Option Int,
      validateLevels (some 0) (resolveOpt f (some 0))
        (resolveOpt c (resolveOpt f (some 0))) = some .valueError) ∧
    (∀ f c : Option Int,
      validateLevels (some 1000) (resolveOpt f (some 1000))
        (resolveOpt c (resolveOpt f (some 1000))) = some .valueError) ∧
    (∀ (e : Int) (c : Option Int),
      validateLevels (some e) (some (e + 1))
        (resolveOpt c (some (e + 1))) = some .valueError) ∧
    (∀ e f : Int, 1 ≤ e → e ≤ 999 → 0 ≤ f → f ≤ e →
      validateLevels (some e) (some f) (some 0) = none) ∧
    (∀ e : Option Int,
      validateLevels e (some 10) (some 5) = some .valueError) ∧
    (∀ e f c : Option Int, validateLevels e f c = none →
      ∃ ev fv cv, e = some ev ∧ f = some fv ∧ c = some cv ∧
        1 ≤ ev ∧ ev ≤ 999 ∧ 0 ≤ fv ∧ fv ≤ ev ∧
        (cv = 0 ∨ (1 ≤ fv ∧ fv ≤ cv ∧ cv ≤ ev))) := by
  refine ⟨?_, ?_, ?_, ?_, ?_, fun e f c h => (validateLevels_none_iff e f c).1 h⟩
  · intro f c
    cases f <;> cases c <;> simp [validateLevels, pyLe, resolveOpt]
  · intro f c
    cases f <;> cases c <;> simp [validateLevels, pyLe, resolveOpt]
  · intro e c
    cases c <;> simp [validateLevels, pyLe, resolveOpt]
  · intro e f h1 h2 h3 h4
    exact (validateLevels_none_iff _ _ _).2
      ⟨e, f, 0, rfl, rfl, rfl, h1, h2, h3, h4, Or.inl rfl⟩
  · intro e
    cases e <;> simp [validateLevels, pyLe]

/-- Witness for C5 at concrete inputs: end 5, fake 3, credits 0 is
accepted, and the soundness direction applies to it. -/
theorem c5_numeric_validation_witness :
    validateLevels (some 5) (some 3) (some 0) = none ∧
    (∃ ev fv cv, (some (5 : Int)) = some ev ∧ (some (3 : Int)) = some fv ∧
      (some (0 : Int)) = some cv ∧
      1 ≤ ev ∧ ev ≤ 999 ∧ 0 ≤ fv ∧ fv ≤ ev ∧
      (cv = 0 ∨ (1 ≤ fv ∧ fv ≤ cv ∧ cv ≤ ev))) := by
  refine ⟨?_, ?_⟩
  · exact c5_numeric_validation.2.2.2.1 5 3 (by norm_num) (by norm_num)
      (by norm_num) (by norm_num)
  · exact c5_numeric_validation.2.2.2.2.2 (some 5) (some 3) (some 0) (by decide)

/-- Claim C2: on every successful patch the credits level is present
after default resolution, and it is written as a signed little-endian
word at both declared offsets 0x9F85 and 0xA6D9, with the single byte
immediately after each word overwritten by the opcode 0x7c when the
level is greater than zero and 0x75 when it is exactly zero. -/
theorem c2_credits_write (img : Image) (r : PatchRequest)
    (hok : (patchexe img r).err = none) :
    CREDITSLEVEL_OFFSETS = [0x9f85, 0xa6d9] ∧
    ∃ cv, resolvedCredits r = some cv ∧ 0 ≤ cv ∧
      ∀ o ∈ CREDITSLEVEL_OFFSETS,
        (patchexe img r).image o = pack16lo cv ∧
        (patchexe img r).image (o + 1) = pack16hi cv ∧
        (patchexe img r).image (o + 2) = (if 0 < cv then 0x7c else 0x75) := by
  obtain ⟨ev, fv, cv, he, hf, hc, h1, h2, h3, h4, h5⟩ :=
    patchexe_ok_levels _ _ hok
  refine ⟨rfl, cv, hc, ?_, patch_ok_credits_bytes _ _ _ hok hc⟩
  rcases h5 with h | h <;> omega

/-- Witness for C2: a concrete request with end level 3 (credits
defaulting to 3). -/
theorem c2_credits_write_witness :
    CREDITSLEVEL_OFFSETS = [0x9f85, 0xa6d9] ∧
    ∃ cv, resolvedCredits { endlevel := some 3 } = some cv ∧ 0 ≤ cv ∧
      ∀ o ∈ CREDITSLEVEL_OFFSETS,
        (patchexe imgD { endlevel := some 3 }).image o = pack16lo cv ∧
        (patchexe imgD { endlevel := some 3 }).image (o + 1) = pack16hi cv ∧
        (patchexe imgD { endlevel := some 3 }).image (o + 2) =
          (if 0 < cv then 0x7c else 0x75) :=
  c2_credits_write imgD { endlevel := some 3 } (by decide)

/-- Claim C3 (counterexample): with an invalid legacy-message byte, a
request that also sets the datfile fails with the assertion error
(the unexpected-byte-value failure) only after the datfile bytes were
already written, so the failed patch does not leave the image
byte-identical to its initial state. -/
theorem c3_counterexample :
    (patchexe imgZ { datfile := some [65], endlevel := some 1, decade := some true }).err = some .assertFailed ∧
    (patchexe imgZ { datfile := some [65], endlevel := some 1, decade := some true }).image DAT_OFFSET = 65 ∧
    imgZ DAT_OFFSET = 0 := by decide

/-- Claim C3 (amended): every validation error other than the
legacy-message assertion — i.e. the string-length and numeric-range
failures — is raised before any byte is mutated, leaving the image
byte-identical to its initial state. -/
theorem c3_validation_before_writes (img : Image) (r : PatchRequest)
    (e : PatchError) (herr : (patchexe img r).err = some e)
    (hne : e ≠ .assertFailed) :
    (patchexe img r).image = img := by
  cases hval : validateRequest r (resolvedFake r) (resolvedCredits r) with
  | some e2 => rw [patchexe_validate_some _ _ _ hval]
  | none =>
    exfalso
    rw [patchexe_validate_none _ _ hval, applyWrites_err] at herr
    exact hne (decadeStep_err_some _ _ _ herr)

/-- Witness for C3 (amended): a request with end level 0 fails with
ValueError and leaves the image unchanged. -/
theorem c3_validation_before_writes_witness :
    (patchexe imgZ { endlevel := some 0 }).err = some .valueError ∧
    (patchexe imgZ { endlevel := some 0 }).image = imgZ :=
  ⟨by decide, c3_validation_before_writes imgZ { endlevel := some 0 }
    .valueError (by decide) (by decide)⟩

/-- Claim C4 (counterexample): a title heading of exactly 17
characters does not pass the length validation — it is rejected with
the string-too-long error (the source maximum is 16 characters). -/
theorem c4_counterexample :
    (patchexe imgD { iniheading := some (List.replicate 17 65), endlevel := some 1 }).err = some .stringTooLong ∧
    (List.replicate 17 65).length = 17 := by decide

/-- Claim C4 (amended): a title heading of exactly 16 characters
passes the length validation and is written with its zero terminator;
one of 17 characters fails with the string-too-long error before any
write, leaving the image unchanged. -/
theorem c4_heading_boundary (img : Image) (s : List Nat) :
    (s.length = 16 →
      (patchexe img { iniheading := some s, endlevel := some 1 }).err = none ∧
      (∀ k (hk : k < s.length),
        (patchexe img { iniheading := some s, endlevel := some 1 }).image
          (HEADING_OFFSET + k) = s.get ⟨k, hk⟩) ∧
      (patchexe img { iniheading := some s, endlevel := some 1 }).image
        (HEADING_OFFSET + s.length) = 0) ∧
    (s.length = 17 →
      (patchexe img { iniheading := some s, endlevel := some 1 }).err =
        some .stringTooLong ∧
      (patchexe img { iniheading := some s, endlevel := some 1 }).image = img) := by
  constructor
  · intro h16
    have hval : validateRequest { iniheading := some s, endlevel := some 1 }
        (resolvedFake { iniheading := some s, endlevel := some 1 })
        (resolvedCredits { iniheading := some s, endlevel := some 1 }) = none := by
      simp [validateRequest, strTooLong, h16, HEADING_LENGTH, validateLevels,
        pyLe, resolvedFake, resolvedCredits, resolveOpt]
    have hok : (patchexe img
        { iniheading := some s, endlevel := some 1 }).err = none := by
      rw [patchexe_validate_none _ _ hval, applyWrites_err]
      simp [decadeStep]
    exact ⟨hok, (patch_ok_head_bytes _ _ _ hok rfl).1,
      (patch_ok_head_bytes _ _ _ hok rfl).2⟩
  · intro h17
    have hval : validateRequest { iniheading := some s, endlevel := some 1 }
        (resolvedFake { iniheading := some s, endlevel := some 1 })
        (resolvedCredits { iniheading := some s, endlevel := some 1 }) =
        some .stringTooLong := by
      simp [validateRequest, strTooLong, h17, HEADING_LENGTH]
    rw [patchexe_validate_some _ _ _ hval]
    exact ⟨rfl, rfl⟩

/-- Witness for C4 (amended): concrete headings of 16 and 17 bytes. -/
theorem c4_heading_boundary_witness :
    (patchexe imgD { iniheading := some (List.replicate 16 66), endlevel := some 1 }).err = none ∧
    (patchexe imgD { iniheading := some (List.replicate 16 66), endlevel := some 1 }).image (HEADING_OFFSET + 16) = 0 ∧
    (patchexe imgD { iniheading := some (List.replicate 17 66), endlevel := some 1 }).err = some .stringTooLong := by
  refine ⟨((c4_heading_boundary imgD (List.replicate 16 66)).1 (by decide)).1,
    ?_, ((c4_heading_boundary imgD (List.replicate 17 66)).2 (by decide)).1⟩
  have h := ((c4_heading_boundary imgD (List.replicate 16 66)).1 (by decide)).2.2
  simpa using h

/-- Claim C9 (counterexample): the report contains no entry for the
sound-enable flag: its keys are exactly the seven listed ones, and
two images differing only in the byte at SOUND_OFFSET produce
identical reports, so no entry can expose that byte. -/
theorem c9_counterexample :
    ((readexe imgZ).map Prod.fst =
      ["datfile", "inifile", "iniheading", "endlevel", "fakeendlevel",
       "creditslevel", "decade"]) ∧
    readexe (update imgZ SOUND_OFFSET 1) = readexe imgZ ∧
    update imgZ SOUND_OFFSET 1 SOUND_OFFSET ≠ imgZ SOUND_OFFSET := by decide

/-- Claim C9 (amended): the reader produces one entry for every
documented field except the sound-enable flag: the three strings are
read up to a zero byte or the field maximum, the three level fields
come back as the lists of signed words decoded at all declared
offsets, and the decade flag as a boolean; the report never depends
on the byte at SOUND_OFFSET. -/
theorem c9_reader_fields (img : Image) :
    ((readexe img).map Prod.fst =
      ["datfile", "inifile", "iniheading", "endlevel", "fakeendlevel",
       "creditslevel", "decade"]) ∧
    (readexe img).lookup "datfile" =
      some (.str (readstring img DAT_OFFSET DAT_LENGTH)) ∧
    (readexe img).lookup "inifile" =
      some (.str (readstring img INI_OFFSET INI_LENGTH)) ∧
    (readexe img).lookup "iniheading" =
      some (.str (readstring img HEADING_OFFSET HEADING_LENGTH)) ∧
    (readexe img).lookup "endlevel" =
      some (.ints [readword img 0x91c0 true, readword img 0xba14 true,
        readword img 0xbb1c true]) ∧
    (readexe img).lookup "fakeendlevel" =
      some (.ints [readword img 0x91b9 true, readword img 0xbb14 true]) ∧
    (readexe img).lookup "creditslevel" =
      some (.ints [readword img 0x9f85 true, readword img 0xa6d9 true]) ∧
    (readexe img).lookup "decade" = some (.bool (readdecade img)) ∧
    (∀ v, readexe (update img SOUND_OFFSET v) = readexe img) := by
  refine ⟨rfl, rfl, rfl, rfl, rfl, rfl, rfl, rfl, ?_⟩
  intro v
  have hu : ∀ p : Nat, p ≠ SOUND_OFFSET → update img SOUND_OFFSET v p = img p :=
    fun p hp => update_other _ _ _ _ hp
  have hs1 : readstring (update img SOUND_OFFSET v) DAT_OFFSET DAT_LENGTH =
      readstring img DAT_OFFSET DAT_LENGTH :=
    readstring_congr _ _ _ _ (fun k hk => hu _ (by
      rw [DAT_LENGTH_eq] at hk
      simp only [DAT_OFFSET, SOUND_OFFSET]
      omega))
  have hs2 : readstring (update img SOUND_OFFSET v) INI_OFFSET INI_LENGTH =
      readstring img INI_OFFSET INI_LENGTH :=
    readstring_congr _ _ _ _ (fun k hk => hu _ (by
      rw [INI_LENGTH_eq] at hk
      simp only [INI_OFFSET, SOUND_OFFSET]
      omega))
  have hs3 : readstring (update img SOUND_OFFSET v) HEADING_OFFSET
      HEADING_LENGTH = readstring img HEADING_OFFSET HEADING_LENGTH :=
    readstring_congr _ _ _ _ (fun k hk => hu _ (by
      simp only [HEADING_LENGTH] at hk
      simp only [HEADING_OFFSET, SOUND_OFFSET]
      omega))
  have hw : ∀ o : Nat, o ≠ SOUND_OFFSET → o + 1 ≠ SOUND_OFFSET →
      readword (update img SOUND_OFFSET v) o true = readword img o true :=
    fun o h1 h2 => readword_congr _ _ _ _ (hu _ h1) (hu _ h2)
  have hd : readdecade (update img SOUND_OFFSET v) = readdecade img := by
    simp only [readdecade]
    rw [hu _ (by simp only [DECADE_OFFSET, SOUND_OFFSET]; omega)]
  simp only [readexe, ENDLEVEL_OFFSETS, FAKEENDLEVEL_OFFSETS,
    CREDITSLEVEL_OFFSETS, List.map_cons, List.map_nil, hs1, hs2, hs3, hd,
    hw 0x91c0 (by decide) (by decide), hw 0xba14 (by decide) (by decide),
    hw 0xbb1c (by decide) (by decide), hw 0x91b9 (by decide) (by decide),
    hw 0xbb14 (by decide) (by decide), hw 0x9f85 (by decide) (by decide),
    hw 0xa6d9 (by decide) (by decide)]

/-- Claim C7 (counterexample): a request that sets only the datfile
(which satisfies its length constraint) and leaves every other field
— including the end level — unset is rejected with ValueError,
because the end-level check compares `1 <= None`, which is false. -/
theorem c7_counterexample :
    (patchexe imgD { datfile := some [65] }).err = some .valueError ∧
    [65].length ≤ DAT_LENGTH := by decide

/-- Claim C7 (amended): with the mandatory end level present, every
other field is independently optional: a request whose set fields
satisfy their constraints (including a valid decade byte when the
decade field is requested) is accepted, and the bytes of each unset
optional field are left untouched. -/
theorem c7_optional_fields (img : Image) (r : PatchRequest)
    (hdat : ∀ v, r.datfile = some v → v.length ≤ DAT_LENGTH)
    (hini : ∀ v, r.inifile = some v → v.length ≤ INI_LENGTH)
    (hhead : ∀ v, r.iniheading = some v → v.length ≤ HEADING_LENGTH)
    (hlev : ∃ ev fv cv, r.endlevel = some ev ∧ resolvedFake r = some fv ∧
      resolvedCredits r = some cv ∧ 1 ≤ ev ∧ ev ≤ 999 ∧ 0 ≤ fv ∧ fv ≤ ev ∧
      (cv = 0 ∨ (1 ≤ fv ∧ fv ≤ cv ∧ cv ≤ ev)))
    (hdec : ∀ b, r.decade = some b →
      img DECADE_OFFSET = DECADE_OFF_BYTE ∨ img DECADE_OFFSET = DECADE_ON_BYTE) :
    (patchexe img r).err = none ∧
    (r.datfile = none → ∀ k, k ≤ DAT_LENGTH →
      (patchexe img r).image (DAT_OFFSET + k) = img (DAT_OFFSET + k)) ∧
    (r.inifile = none → ∀ k, k ≤ INI_LENGTH →
      (patchexe img r).image (INI_OFFSET + k) = img (INI_OFFSET + k)) ∧
    (r.iniheading = none → ∀ k, k ≤ HEADING_LENGTH →
      (patchexe img r).image (HEADING_OFFSET + k) = img (HEADING_OFFSET + k)) ∧
    (r.decade = none →
      (patchexe img r).image DECADE_OFFSET = img DECADE_OFFSET) ∧
    (r.soundon = none →
      (patchexe img r).image SOUND_OFFSET = img SOUND_OFFSET) := by
  obtain ⟨ev, fv, cv, he, hf, hc, hb1, hb2, hb3, hb4, hb5⟩ := hlev
  have hval : validateRequest r (resolvedFake r) (resolvedCredits r) = none := by
    refine (validateRequest_none_iff _ _ _).2
      ⟨strTooLong_false_of _ _ hdat, strTooLong_false_of _ _ hini,
       strTooLong_false_of _ _ hhead, ?_⟩
    exact (validateLevels_none_iff _ _ _).2
      ⟨ev, fv, cv, he, hf, hc, hb1, hb2, hb3, hb4, hb5⟩
  have hdecb : imgAfterWrites img r (resolvedFake r) (resolvedCredits r)
      DECADE_OFFSET = img DECADE_OFFSET := by
    apply imgAfterWrites_frame
    · intro v hv
      have := hdat v hv
      rw [DAT_LENGTH_eq] at this
      simp only [DAT_OFFSET, DECADE_OFFSET]
      omega
    · intro v hv
      have := hini v hv
      rw [INI_LENGTH_eq] at this
      simp only [INI_OFFSET, DECADE_OFFSET]
      omega
    · intro v hv
      have := hhead v hv
      simp only [HEADING_LENGTH] at this
      simp only [HEADING_OFFSET, DECADE_OFFSET]
      omega
    · intro x hx o ho
      simp only [ENDLEVEL_OFFSETS, List.mem_cons, List.not_mem_nil, or_false] at ho
      rcases ho with rfl | rfl | rfl <;> simp only [DECADE_OFFSET] <;> omega
    · intro x hx o ho
      simp only [FAKEENDLEVEL_OFFSETS, List.mem_cons, List.not_mem_nil, or_false] at ho
      rcases ho with rfl | rfl <;> simp only [DECADE_OFFSET] <;> omega
    · intro x hx o ho
      simp only [CREDITSLEVEL_OFFSETS, List.mem_cons, List.not_mem_nil, or_false] at ho
      rcases ho with rfl | rfl <;> simp only [DECADE_OFFSET] <;> omega
  have hok : (patchexe img r).err = none := by
    rw [patchexe_validate_none _ _ hval, applyWrites_err]
    refine (decadeStep_err_none _ _).2 (fun b hb => ?_)
    rw [hdecb]
    exact hdec b hb
  refine ⟨hok, ?_, ?_, ?_, ?_, ?_⟩
  · intro hnone k hk
    rw [DAT_LENGTH_eq] at hk
    apply patch_ok_frame _ _ _ hok
    · intro v hv; rw [hnone] at hv; cases hv
    · intro v hv
      have := hini v hv
      rw [INI_LENGTH_eq] at this
      simp only [INI_OFFSET, DAT_OFFSET]
      omega
    · intro v hv
      have := hhead v hv
      simp only [HEADING_LENGTH] at this
      simp only [HEADING_OFFSET, DAT_OFFSET]
      omega
    · intro x hx o ho
      simp only [ENDLEVEL_OFFSETS, List.mem_cons, List.not_mem_nil, or_false] at ho
      rcases ho with rfl | rfl | rfl <;> simp only [DAT_OFFSET] <;> omega
    · intro x hx o ho
      simp only [FAKEENDLEVEL_OFFSETS, List.mem_cons, List.not_mem_nil, or_false] at ho
      rcases ho with rfl | rfl <;> simp only [DAT_OFFSET] <;> omega
    · intro x hx o ho
      simp only [CREDITSLEVEL_OFFSETS, List.mem_cons, List.not_mem_nil, or_false] at ho
      rcases ho with rfl | rfl <;> simp only [DAT_OFFSET] <;> omega
    · intro b hb
      simp only [DAT_OFFSET, DECADE_OFFSET]
      omega
    · intro b hb
      simp only [DAT_OFFSET, SOUND_OFFSET]
      omega
  · intro hnone k hk
    rw [INI_LENGTH_eq] at hk
    apply patch_ok_frame _ _ _ hok
    · intro v hv
      have := hdat v hv
      rw [DAT_LENGTH_eq] at this
      simp only [INI_OFFSET, DAT_OFFSET]
      omega
    · intro v hv; rw [hnone] at hv; cases hv
    · intro v hv
      simp only [HEADING_OFFSET, INI_OFFSET]
      omega
    · intro x hx o ho
      simp only [ENDLEVEL_OFFSETS, List.mem_cons, List.not_mem_nil, or_false] at ho
      rcases ho with rfl | rfl | rfl <;> simp only [INI_OFFSET] <;> omega
    · intro x hx o ho
      simp only [FAKEENDLEVEL_OFFSETS, List.mem_cons, List.not_mem_nil, or_false] at ho
      rcases ho with rfl | rfl <;> simp only [INI_OFFSET] <;> omega
    · intro x hx o ho
      simp only [CREDITSLEVEL_OFFSETS, List.mem_cons, List.not_mem_nil, or_false] at ho
      rcases ho with rfl | rfl <;> simp only [INI_OFFSET] <;> omega
    · intro b hb
      simp only [INI_OFFSET, DECADE_OFFSET]
      omega
    · intro b hb
      simp only [INI_OFFSET, SOUND_OFFSET]
      omega
  · intro hnone k hk
    simp only [HEADING_LENGTH] at hk
    apply patch_ok_frame _ _ _ hok
    · intro v hv
      have := hdat v hv
      simp only [HEADING_OFFSET, DAT_OFFSET]
      omega
    · intro v hv
      have := hini v hv
      rw [INI_LENGTH_eq] at this
      simp only [HEADING_OFFSET, INI_OFFSET]
      omega
    · intro v hv; rw [hnone] at hv; cases hv
    · intro x hx o ho
      simp only [ENDLEVEL_OFFSETS, List.mem_cons, List.not_mem_nil, or_false] at ho
      rcases ho with rfl | rfl | rfl <;> simp only [HEADING_OFFSET] <;> omega
    · intro x hx o ho
      simp only [FAKEENDLEVEL_OFFSETS, List.mem_cons, List.not_mem_nil, or_false] at ho
      rcases ho with rfl | rfl <;> simp only [HEADING_OFFSET] <;> omega
    · intro x hx o ho
      simp only [CREDITSLEVEL_OFFSETS, List.mem_cons, List.not_mem_nil, or_false] at ho
      rcases ho with rfl | rfl <;> simp only [HEADING_OFFSET] <;> omega
    · intro b hb
      simp only [HEADING_OFFSET, DECADE_OFFSET]
      omega
    · intro b hb
      simp only [HEADING_OFFSET, SOUND_OFFSET]
      omega
  · intro hnone
    apply patch_ok_frame _ _ _ hok
    · intro v hv
      have := hdat v hv
      rw [DAT_LENGTH_eq] at this
      simp only [DAT_OFFSET, DECADE_OFFSET]
      omega
    · intro v hv
      have := hini v hv
      rw [INI_LENGTH_eq] at this
      simp only [INI_OFFSET, DECADE_OFFSET]
      omega
    · intro v hv
      have := hhead v hv
      simp only [HEADING_LENGTH] at this
      simp only [HEADING_OFFSET, DECADE_OFFSET]
      omega
    · intro x hx o ho
      simp only [ENDLEVEL_OFFSETS, List.mem_cons, List.not_mem_nil, or_false] at ho
      rcases ho with rfl | rfl | rfl <;> simp only [DECADE_OFFSET] <;> omega
    · intro x hx o ho
      simp only [FAKEENDLEVEL_OFFSETS, List.mem_cons, List.not_mem_nil, or_false] at ho
      rcases ho with rfl | rfl <;> simp only [DECADE_OFFSET] <;> omega
    · intro x hx o ho
      simp only [CREDITSLEVEL_OFFSETS, List.mem_cons, List.not_mem_nil, or_false] at ho
      rcases ho with rfl | rfl <;> simp only [DECADE_OFFSET] <;> omega
    · intro b hb; rw [hnone] at hb; cases hb
    · intro b hb
      simp only [DECADE_OFFSET, SOUND_OFFSET]
      omega
  · intro hnone
    apply patch_ok_frame _ _ _ hok
    · intro v hv
      have := hdat v hv
      rw [DAT_LENGTH_eq] at this
      simp only [DAT_OFFSET, SOUND_OFFSET]
      omega
    · intro v hv
      have := hini v hv
      rw [INI_LENGTH_eq] at this
      simp only [INI_OFFSET, SOUND_OFFSET]
      omega
    · intro v hv
      have := hhead v hv
      simp only [HEADING_LENGTH] at this
      simp only [HEADING_OFFSET, SOUND_OFFSET]
      omega
    · intro x hx o ho
      simp only [ENDLEVEL_OFFSETS, List.mem_cons, List.not_mem_nil, or_false] at ho
      rcases ho with rfl | rfl | rfl <;> simp only [SOUND_OFFSET] <;> omega
    · intro x hx o ho
      simp only [FAKEENDLEVEL_OFFSETS, List.mem_cons, List.not_mem_nil, or_false] at ho
      rcases ho with rfl | rfl <;> simp only [SOUND_OFFSET] <;> omega
    · intro x hx o ho
      simp only [CREDITSLEVEL_OFFSETS, List.mem_cons, List.not_mem_nil, or_false] at ho
      rcases ho with rfl | rfl <;> simp only [SOUND_OFFSET] <;> omega
    · intro b hb
      simp only [DECADE_OFFSET, SOUND_OFFSET]
      omega
    · intro b hb; rw [hnone] at hb; cases hb

/-- Witness for C7 (amended): a request setting only the end level. -/
theorem c7_optional_fields_witness :
    (patchexe imgD { endlevel := some 2 }).err = none ∧
    (patchexe imgD { endlevel := some 2 }).image DAT_OFFSET = imgD DAT_OFFSET ∧
    (patchexe imgD { endlevel := some 2 }).image DECADE_OFFSET = imgD DECADE_OFFSET ∧
    (patchexe imgD { endlevel := some 2 }).image SOUND_OFFSET = imgD SOUND_OFFSET := by
  have h := c7_optional_fields imgD { endlevel := some 2 }
    (by simp) (by simp) (by simp)
    ⟨2, 2, 2, rfl, rfl, rfl, by norm_num, by norm_num, by norm_num, by norm_num,
      Or.inr ⟨by norm_num, by norm_num, by norm_num⟩⟩
    (by simp)
  refine ⟨h.1, ?_, h.2.2.2.2.1 rfl, h.2.2.2.2.2 rfl⟩
  have h0 := h.2.1 rfl 0 (by norm_num)
  simpa using h0

/-- Claim C10: byte-level frame property of a successful patch — the
only bytes that may change are, per present (post-resolution) field,
the string bytes plus the terminating zero, the two-byte words at
each declared level offset, the opcode byte after each credits word,
and the decade and sound flag bytes; every byte outside these
regions is unchanged. -/
theorem c10_frame (img : Image) (r : PatchRequest) (i : Nat)
    (hok : (patchexe img r).err = none)
    (hreg : inWriteRegion r i = false) :
    (patchexe img r).image i = img i := by
  simp only [inWriteRegion, Bool.or_eq_false_iff] at hreg
  obtain ⟨⟨⟨⟨⟨⟨⟨h1, h2⟩, h3⟩, h4⟩, h5⟩, h6⟩, h7⟩, h8⟩ := hreg
  apply patch_ok_frame _ _ _ hok
  · intro v hv; rw [hv] at h1; simpa using h1
  · intro v hv; rw [hv] at h2; simpa using h2
  · intro v hv; rw [hv] at h3; simpa using h3
  · intro x hx o ho
    rw [hx] at h4
    simp only [ENDLEVEL_OFFSETS, List.mem_cons, List.not_mem_nil, or_false] at ho
    simp [ENDLEVEL_OFFSETS] at h4
    rcases ho with rfl | rfl | rfl <;> omega
  · intro x hx o ho
    rw [hx] at h5
    simp only [FAKEENDLEVEL_OFFSETS, List.mem_cons, List.not_mem_nil, or_false] at ho
    simp [FAKEENDLEVEL_OFFSETS] at h5
    rcases ho with rfl | rfl <;> omega
  · intro x hx o ho
    rw [hx] at h6
    simp only [CREDITSLEVEL_OFFSETS, List.mem_cons, List.not_mem_nil, or_false] at ho
    simp [CREDITSLEVEL_OFFSETS] at h6
    rcases ho with rfl | rfl <;> omega
  · intro b hb; rw [hb] at h7; simpa using h7
  · intro b hb; rw [hb] at h8; simpa using h8

/-- Witness for C10: a concrete request, at byte 0 of the image. -/
theorem c10_frame_witness :
    (patchexe imgD { endlevel := some 1 }).err = none ∧
    inWriteRegion { endlevel := some 1 } 0 = false ∧
    (patchexe imgD { endlevel := some 1 }).image 0 = imgD 0 :=
  ⟨by decide, by decide,
    c10_frame imgD { endlevel := some 1 } 0 (by decide) (by decide)⟩

/-- Claim C1 (counterexample): the round-trip fails as stated: a
valid request whose datfile value contains a zero byte is accepted
and written, but the dumper reads the string back only up to the
first zero byte and returns a different value. -/
theorem c1_counterexample :
    (patchexe imgD { datfile := some [0, 65], endlevel := some 1 }).err = none ∧
    (readexe (patchexe imgD
      { datfile := some [0, 65], endlevel := some 1 }).image).lookup "datfile" =
      some (.str []) ∧
    RVal.str [] ≠ RVal.str [0, 65] := by decide

/-- Claim C1 (amended): for every request accepted by the patcher,
applied to an image that passed the validator, whose string values
contain no zero byte, the dumper reads back exactly the requested
value for every field it reports (every field except the sound
flag), after default resolution of the fake-end and credits levels;
each redundant-copy field reads back as a list all of whose elements
equal the requested value. -/
theorem c1_roundtrip (size : Nat) (img : Image) (r : PatchRequest)
    (hsize : checkexe size = none)
    (hok : (patchexe img r).err = none)
    (hdz : ∀ s, r.datfile = some s → 0 ∉ s)
    (hiz : ∀ s, r.inifile = some s → 0 ∉ s)
    (hhz : ∀ s, r.iniheading = some s → 0 ∉ s) :
    (∀ s, r.datfile = some s →
      (readexe (patchexe img r).image).lookup "datfile" = some (.str s)) ∧
    (∀ s, r.inifile = some s →
      (readexe (patchexe img r).image).lookup "inifile" = some (.str s)) ∧
    (∀ s, r.iniheading = some s →
      (readexe (patchexe img r).image).lookup "iniheading" = some (.str s)) ∧
    (∀ ev, r.endlevel = some ev →
      (readexe (patchexe img r).image).lookup "endlevel" =
        some (.ints [ev, ev, ev])) ∧
    (∀ fv, resolvedFake r = some fv →
      (readexe (patchexe img r).image).lookup "fakeendlevel" =
        some (.ints [fv, fv])) ∧
    (∀ cv, resolvedCredits r = some cv →
      (readexe (patchexe img r).image).lookup "creditslevel" =
        some (.ints [cv, cv])) ∧
    (∀ b, r.decade = some b →
      (readexe (patchexe img r).image).lookup "decade" = some (.bool b)) := by
  obtain ⟨hl1, hl2, hl3⟩ := patchexe_ok_strlen _ _ hok
  obtain ⟨ev, fv, cv, he, hf, hc, hb1, hb2, hb3, hb4, hb5⟩ :=
    patchexe_ok_levels _ _ hok
  refine ⟨?_, ?_, ?_, ?_, ?_, ?_, ?_⟩
  · intro s hs
    rw [readexe_lookup_datfile,
      readstring_spec s _ _ _ (hl1 s hs) (hdz s hs)
        (patch_ok_dat_bytes _ _ _ hok hs).1
        (fun _ => (patch_ok_dat_bytes _ _ _ hok hs).2)]
  · intro s hs
    rw [readexe_lookup_inifile,
      readstring_spec s _ _ _ (hl2 s hs) (hiz s hs)
        (patch_ok_ini_bytes _ _ _ hok hs).1
        (fun _ => (patch_ok_ini_bytes _ _ _ hok hs).2)]
  · intro s hs
    rw [readexe_lookup_iniheading,
      readstring_spec s _ _ _ (hl3 s hs) (hhz s hs)
        (patch_ok_head_bytes _ _ _ hok hs).1
        (fun _ => (patch_ok_head_bytes _ _ _ hok hs).2)]
  · intro ev2 he2
    rw [he2] at he
    injection he with heq
    subst heq
    have hw := patch_ok_end_words _ _ _ hok he2
    have w1 := hw 0x91c0 (by simp [ENDLEVEL_OFFSETS])
    have w2 := hw 0xba14 (by simp [ENDLEVEL_OFFSETS])
    have w3 := hw 0xbb1c (by simp [ENDLEVEL_OFFSETS])
    rw [readexe_lookup_endlevel,
      readword_pack _ _ ev2 (by omega) (by omega) w1.1 w1.2,
      readword_pack _ _ ev2 (by omega) (by omega) w2.1 w2.2,
      readword_pack _ _ ev2 (by omega) (by omega) w3.1 w3.2]
  · intro fv2 hf2
    rw [hf2] at hf
    injection hf with heq
    subst heq
    have hw := patch_ok_fake_words _ _ _ hok hf2
    have w1 := hw 0x91b9 (by simp [FAKEENDLEVEL_OFFSETS])
    have w2 := hw 0xbb14 (by simp [FAKEENDLEVEL_OFFSETS])
    rw [readexe_lookup_fakeendlevel,
      readword_pack _ _ fv2 (by omega) (by omega) w1.1 w1.2,
      readword_pack _ _ fv2 (by omega) (by omega) w2.1 w2.2]
  · intro cv2 hc2
    rw [hc2] at hc
    injection hc with heq
    subst heq
    have hw := patch_ok_credits_bytes _ _ _ hok hc2
    have w1 := hw 0x9f85 (by simp [CREDITSLEVEL_OFFSETS])
    have w2 := hw 0xa6d9 (by simp [CREDITSLEVEL_OFFSETS])
    rw [readexe_lookup_creditslevel,
      readword_pack _ _ cv2 (by omega) (by omega) w1.1 w1.2.1,
      readword_pack _ _ cv2 (by omega) (by omega) w2.1 w2.2.1]
  · intro b hbd
    rw [readexe_lookup_decade]
    simp only [readdecade, patch_ok_decade_byte _ _ _ hok hbd]
    cases b <;> simp [DECADE_ON_BYTE, DECADE_OFF_BYTE]

/-- Witness for C1 (amended): a concrete full request on a valid base
image, with the dumper reading every requested value back. -/
theorem c1_roundtrip_witness :
    checkexe 267776 = none ∧
    (patchexe imgD reqC1).err = none ∧
    (readexe (patchexe imgD reqC1).image).lookup "datfile" = some (.str [67]) ∧
    (readexe (patchexe imgD reqC1).image).lookup "endlevel" =
      some (.ints [149, 149, 149]) ∧
    (readexe (patchexe imgD reqC1).image).lookup "creditslevel" =
      some (.ints [145, 145]) ∧
    (readexe (patchexe imgD reqC1).image).lookup "decade" =
      some (.bool true) := by
  have h := c1_roundtrip 267776 imgD reqC1 (by decide) (by decide)
    (by intro s hs; injection hs with hh; subst hh; decide)
    (by intro s hs; injection hs with hh; subst hh; decide)
    (by intro s hs; injection hs with hh; subst hh; decide)
  exact ⟨by decide, by decide, h.1 [67] rfl, h.2.2.2.1 149 rfl,
    h.2.2.2.2.2.1 145 rfl, h.2.2.2.2.2.2 true rfl⟩

/-- Witness for C6: the sample header parses, and a header whose
first byte is altered fails with the not-a-levelset error. -/
theorem c6_header_parse_witness :
    parseLevelset [0xAC, 0xAA, 0x01, 0x00, 0x95, 0x00] = .ok 149 ∧
    parseLevelset [0x00, 0xAA, 0x01, 0x00, 0x95, 0x00] =
      .error .notALevelset := by
  refine ⟨c6_header_parse.2.2.2.1, ?_⟩
  exact (c6_header_parse.2.1 [0x00, 0xAA, 0x01, 0x00, 0x95, 0x00]).2 (by decide)

/-- Witness for C8: the canonical derivation scenario. -/
theorem c8_derivation_witness :
    deriveParams 149 (strBytes "CHIPS.DAT") = (149, some 144, 145) :=
  c8_derivation.2.1

/-- Witness for C9 (amended): the report ignores a concrete sound
byte change. -/
theorem c9_reader_fields_witness :
    readexe (update imgZ SOUND_OFFSET 7) = readexe imgZ :=
  (c9_reader_fields imgZ).2.2.2.2.2.2.2.2 7

end Playchip
